import Mathlib

/-!
Verification of the per-user extract-join-aggregate pipeline.

Shallow embedding of `src/script.py` (siblings-analysis): a per-user pipeline
that loads three filtered tables (revlogs, cards, decks) from a columnar store,
inner-joins them, computes summary statistics, and an orchestrator that maps
the pipeline over a list of user ids and writes the surviving results in input
order.

Tables are embedded as lists of records (pandas DataFrames are row-ordered).
Numeric columns are `ℤ`; statistics are `ℚ`.  A pandas value that is NaN
(an undefined mean, an unmapped rating) is embedded as `none : Option ℚ`,
since the only NaN-producing operations here are `Series.map` on a missing
key and `Series.mean` of an empty/all-NaN series, and `Series.mean` skips
NaN entries (`skipna=True` default).  `round(x, 2)` / `.round(2)` is
half-to-even rounding at two decimal places, embedded exactly on `ℚ`.
-/

/-- A row of the `revlogs` relation, restricted to the columns the script
reads: `user_id`, `card_id`, `state`, `rating`.  The store returns rows
pre-sorted by timestamp, so list order is timestamp order. -/
structure Review where
  user_id : ℤ
  card_id : ℤ
  state : ℤ
  rating : ℤ
deriving DecidableEq, Repr

/-- A row of the `cards` relation: `user_id`, `card_id`, `note_id`, `deck_id`. -/
structure Card where
  user_id : ℤ
  card_id : ℤ
  note_id : ℤ
  deck_id : ℤ
deriving DecidableEq, Repr

/-- A row of the `decks` relation: `user_id`, `deck_id`. -/
structure Deck where
  user_id : ℤ
  deck_id : ℤ
deriving DecidableEq, Repr

/-- The columnar store: the three relations, each a row-ordered table. -/
structure Store where
  revlogs : List Review
  cards : List Card
  decks : List Deck
deriving Repr

/-- A revlog row after `df_revlogs["review_th"] = range(1, n+1)` and
`del df_revlogs["user_id"]`: the surviving columns plus the 1-based
sequence number. -/
structure NumberedReview where
  review_th : ℕ
  card_id : ℤ
  state : ℤ
  rating : ℤ
deriving DecidableEq, Repr

/-- A cards row after `del df_cards["user_id"]`. -/
structure CardRow where
  card_id : ℤ
  note_id : ℤ
  deck_id : ℤ
deriving DecidableEq, Repr

/-- A decks row after `del df_decks["user_id"]`. -/
structure DeckRow where
  deck_id : ℤ
deriving DecidableEq, Repr

/-- A row of the joined frame
`df_revlogs.merge(df_cards, on="card_id").merge(df_decks, on="deck_id")`:
revlog columns plus the card's `note_id` and `deck_id` (the decks table
contributes no further columns). -/
structure JoinedRow where
  review_th : ℕ
  card_id : ℤ
  state : ℤ
  rating : ℤ
  note_id : ℤ
  deck_id : ℤ
deriving DecidableEq, Repr

/-- Which `return None` branch of `load_user_data` fired; in the script each
is observable only as a distinct console message ("No data found…",
"No card data…", "No deck data…", "No joined data…"). -/
inductive LoadFailure
  | noReviews
  | noCards
  | noDecks
  | noJoined
deriving DecidableEq, Repr

instance {ε α : Type} [DecidableEq ε] [DecidableEq α] :
    DecidableEq (Except ε α)
  | .error x, .error y =>
    if h : x = y then .isTrue (congrArg Except.error h)
    else .isFalse fun hc => h (by injection hc)
  | .error _, .ok _ => .isFalse fun hc => Except.noConfusion hc
  | .ok _, .error _ => .isFalse fun hc => Except.noConfusion hc
  | .ok x, .ok y =>
    if h : x = y then .isTrue (congrArg Except.ok h)
    else .isFalse fun hc => h (by injection hc)

/-- The dict built by `get_avg_review_count`.  The three statistics are
`Option ℚ`: `none` embeds pandas NaN (possible for `retention_rate`). -/
structure ResultRecord where
  user_id : ℤ
  revlogs_count : ℕ
  card_count : ℕ
  note_count : ℕ
  avg_review_count_per_note : Option ℚ
  avg_review_count_per_card : Option ℚ
  retention_rate : Option ℚ
deriving DecidableEq, Repr

/-- `pd.read_parquet("revlogs", filters=[("user_id", "=", user_id)])`:
the user's revlog rows in stored (timestamp) order. -/
def df_revlogs (s : Store) (user_id : ℤ) : List Review :=
  s.revlogs.filter (fun r => r.user_id == user_id)

/-- `df_revlogs["review_th"] = range(1, revlogs_count + 1)` followed by
`del df_revlogs["user_id"]`: each row is tagged with its 1-based position. -/
def numberRevlogs (revs : List Review) : List NumberedReview :=
  revs.enum.map (fun p =>
    { review_th := p.1 + 1, card_id := p.2.card_id,
      state := p.2.state, rating := p.2.rating })

/-- `pd.read_parquet("cards", filters=...)` followed by
`del df_cards["user_id"]`. -/
def df_cards (s : Store) (user_id : ℤ) : List CardRow :=
  (s.cards.filter (fun c => c.user_id == user_id)).map (fun c =>
    { card_id := c.card_id, note_id := c.note_id, deck_id := c.deck_id })

/-- `pd.read_parquet("decks", filters=...)` followed by
`del df_decks["user_id"]`. -/
def df_decks (s : Store) (user_id : ℤ) : List DeckRow :=
  (s.decks.filter (fun d => d.user_id == user_id)).map (fun d =>
    { deck_id := d.deck_id })

/-- `df_revlogs.merge(df_cards, on="card_id", how="inner")`: for each left
row in order, one output row per matching cards row. -/
def mergeCards (revs : List NumberedReview) (cards : List CardRow) :
    List JoinedRow :=
  revs.flatMap (fun r =>
    (cards.filter (fun c => c.card_id == r.card_id)).map (fun c =>
      { review_th := r.review_th, card_id := r.card_id, state := r.state,
        rating := r.rating, note_id := c.note_id, deck_id := c.deck_id }))

/-- `.merge(df_decks, on="deck_id", how="inner")`: the decks table adds no
columns, so a matching deck row just replicates the left row. -/
def mergeDecks (rows : List JoinedRow) (decks : List DeckRow) :
    List JoinedRow :=
  rows.flatMap (fun row =>
    (decks.filter (fun d => d.deck_id == row.deck_id)).map (fun _ => row))

/-- The full two-step inner join built by `load_user_data`. -/
def df_join (s : Store) (user_id : ℤ) : List JoinedRow :=
  mergeDecks (mergeCards (numberRevlogs (df_revlogs s user_id))
    (df_cards s user_id)) (df_decks s user_id)

/-- `load_user_data(user_id)`: fetch the three filtered tables, checking
emptiness after each fetch and after the join; on success return the joined
frame.  The script returns `None` in all four failure branches; the
`LoadFailure` value records which branch (= which console message). -/
def load_user_data (s : Store) (user_id : ℤ) :
    Except LoadFailure (List JoinedRow) :=
  if (df_revlogs s user_id).isEmpty then .error .noReviews
  else if (df_cards s user_id).isEmpty then .error .noCards
  else if (df_decks s user_id).isEmpty then .error .noDecks
  else if (df_join s user_id).isEmpty then .error .noJoined
  else .ok (df_join s user_id)

/-- `Series.value_counts()` of a key column: one count per distinct key. -/
def value_counts (l : List ℤ) : List ℕ :=
  l.dedup.map (fun v => l.count v)

/-- `Series.mean()`: `none` (NaN) on an empty series, else the average. -/
def meanQ (l : List ℚ) : Option ℚ :=
  if l.isEmpty then none else some (l.sum / l.length)

/-- `.map({1: 0, 2: 1, 3: 1, 4: 1})` on the rating column: a missing key
yields NaN (`none`), which `Series.mean()` then skips. -/
def ratingMap (r : ℤ) : Option ℚ :=
  if r = 1 then some 0
  else if r = 2 then some 1
  else if r = 3 then some 1
  else if r = 4 then some 1
  else none

/-- Round a rational to the nearest integer, ties to even (the rounding used
by Python's `round` and numpy/pandas `.round`).  Stated with the
executable `Rat.floor` (equal to `⌊q⌋`, see `rat_floor_eq_floor`). -/
def roundHalfEven (q : ℚ) : ℤ :=
  if q - q.floor < 1/2 then q.floor
  else if 1/2 < q - q.floor then q.floor + 1
  else if q.floor % 2 = 0 then q.floor else q.floor + 1

/-- `round(x, 2)` / `.round(2)`: half-to-even at two decimal places. -/
def round2 (q : ℚ) : ℚ :=
  (roundHalfEven (q * 100) : ℚ) / 100

/-- `get_avg_review_count(user_id)`: run the loader, then compute the seven
fields of the result dict; `None` when the loader failed. -/
def get_avg_review_count (s : Store) (user_id : ℤ) : Option ResultRecord :=
  match load_user_data s user_id with
  | .error _ => none
  | .ok j =>
    some
      { user_id := user_id
        revlogs_count := j.length
        card_count := (j.map (fun row => row.card_id)).dedup.length
        note_count := (j.map (fun row => row.note_id)).dedup.length
        avg_review_count_per_note :=
          (meanQ ((value_counts (j.map (fun row => row.note_id))).map
            (fun n : ℕ => (n : ℚ)))).map round2
        avg_review_count_per_card :=
          (meanQ ((value_counts (j.map (fun row => row.card_id))).map
            (fun n : ℕ => (n : ℚ)))).map round2
        retention_rate :=
          (meanQ (((j.filter (fun row => row.state == 2)).map
            (fun row => row.rating)).filterMap ratingMap)).map round2 }

/-- `process_users(user_ids, ...)`: `executor.map` yields one outcome per
user id in submission order; `None` outcomes are then filtered out.  The
returned list is also exactly what the write loop serialises, one JSON line
per record in order, so it determines the output file's contents. -/
def process_users (s : Store) (user_ids : List ℤ) : List ResultRecord :=
  let results := user_ids.map (get_avg_review_count s)
  results.filterMap id

/-! ## Helper lemmas about the embedded operations -/

lemma mem_mergeCards {revs : List NumberedReview} {cards : List CardRow}
    {row : JoinedRow} :
    row ∈ mergeCards revs cards ↔
      ∃ r ∈ revs, ∃ c ∈ cards, c.card_id = r.card_id ∧
        row = { review_th := r.review_th, card_id := r.card_id,
                state := r.state, rating := r.rating,
                note_id := c.note_id, deck_id := c.deck_id } := by
  simp only [mergeCards, List.mem_flatMap, List.mem_map, List.mem_filter,
    beq_iff_eq]
  constructor
  · rintro ⟨r, hr, c, ⟨hc, hcc⟩, hrow⟩
    exact ⟨r, hr, c, hc, hcc, hrow.symm⟩
  · rintro ⟨r, hr, c, hc, hcc, hrow⟩
    exact ⟨r, hr, c, ⟨hc, hcc⟩, hrow.symm⟩

lemma mem_mergeDecks {rows : List JoinedRow} {decks : List DeckRow}
    {row : JoinedRow} :
    row ∈ mergeDecks rows decks ↔
      row ∈ rows ∧ ∃ d ∈ decks, d.deck_id = row.deck_id := by
  simp only [mergeDecks, List.mem_flatMap, List.mem_map, List.mem_filter,
    beq_iff_eq]
  constructor
  · rintro ⟨r, hr, ⟨d, ⟨hd, hdd⟩, hrow⟩⟩
    subst hrow
    exact ⟨hr, d, hd, hdd⟩
  · rintro ⟨hr, d, hd, hdd⟩
    exact ⟨row, hr, ⟨d, ⟨hd, hdd⟩, rfl⟩⟩

lemma mem_numberRevlogs {revs : List Review} {nr : NumberedReview} :
    nr ∈ numberRevlogs revs ↔
      ∃ i, ∃ hi : i < revs.length,
        nr = { review_th := i + 1, card_id := (revs.get ⟨i, hi⟩).card_id,
               state := (revs.get ⟨i, hi⟩).state,
               rating := (revs.get ⟨i, hi⟩).rating } := by
  simp only [numberRevlogs, List.mem_map, List.exists_mem_enum,
    List.get_eq_getElem]
  constructor
  · rintro ⟨i, hi, hnr⟩
    exact ⟨i, hi, hnr.symm⟩
  · rintro ⟨i, hi, hnr⟩
    exact ⟨i, hi, hnr.symm⟩

/-- Membership in the two-step join, phrased through the position of the
originating review in the fetched (timestamp-ordered) review list. -/
lemma mem_df_join {s : Store} {uid : ℤ} {row : JoinedRow} :
    row ∈ df_join s uid ↔
      ∃ i, ∃ hi : i < (df_revlogs s uid).length,
        ∃ c ∈ df_cards s uid,
          c.card_id = ((df_revlogs s uid).get ⟨i, hi⟩).card_id ∧
          (∃ d ∈ df_decks s uid, d.deck_id = c.deck_id) ∧
          row = { review_th := i + 1,
                  card_id := ((df_revlogs s uid).get ⟨i, hi⟩).card_id,
                  state := ((df_revlogs s uid).get ⟨i, hi⟩).state,
                  rating := ((df_revlogs s uid).get ⟨i, hi⟩).rating,
                  note_id := c.note_id, deck_id := c.deck_id } := by
  rw [df_join, mem_mergeDecks, mem_mergeCards]
  constructor
  · rintro ⟨⟨r, hr, c, hc, hcc, hrow⟩, d, hd, hdd⟩
    rcases mem_numberRevlogs.mp hr with ⟨i, hi, hnr⟩
    subst hnr
    subst hrow
    exact ⟨i, hi, c, hc, hcc, ⟨d, hd, hdd⟩, rfl⟩
  · rintro ⟨i, hi, c, hc, hcc, ⟨d, hd, hdd⟩, hrow⟩
    subst hrow
    exact ⟨⟨{ review_th := i + 1,
              card_id := ((df_revlogs s uid).get ⟨i, hi⟩).card_id,
              state := ((df_revlogs s uid).get ⟨i, hi⟩).state,
              rating := ((df_revlogs s uid).get ⟨i, hi⟩).rating },
        mem_numberRevlogs.mpr ⟨i, hi, rfl⟩, c, hc, hcc, rfl⟩, d, hd, hdd⟩

lemma load_user_data_eq_ok {s : Store} {uid : ℤ} {j : List JoinedRow} :
    load_user_data s uid = .ok j ↔
      df_revlogs s uid ≠ [] ∧ df_cards s uid ≠ [] ∧ df_decks s uid ≠ [] ∧
        df_join s uid ≠ [] ∧ j = df_join s uid := by
  unfold load_user_data
  split_ifs with h1 h2 h3 h4
  · rw [List.isEmpty_iff] at h1
    simp [h1]
  · rw [List.isEmpty_iff] at h2
    simp [h2]
  · rw [List.isEmpty_iff] at h3
    simp [h3]
  · rw [List.isEmpty_iff] at h4
    simp [h4]
  · rw [List.isEmpty_iff] at h1 h2 h3 h4
    simp only [Except.ok.injEq, ne_eq, h1, h2, h3, h4, not_false_eq_true,
      true_and]
    exact eq_comm

lemma get_avg_review_count_of_ok {s : Store} {uid : ℤ} {j : List JoinedRow}
    (h : load_user_data s uid = .ok j) :
    get_avg_review_count s uid = some
      { user_id := uid
        revlogs_count := j.length
        card_count := (j.map (fun row => row.card_id)).dedup.length
        note_count := (j.map (fun row => row.note_id)).dedup.length
        avg_review_count_per_note :=
          (meanQ ((value_counts (j.map (fun row => row.note_id))).map
            (fun n : ℕ => (n : ℚ)))).map round2
        avg_review_count_per_card :=
          (meanQ ((value_counts (j.map (fun row => row.card_id))).map
            (fun n : ℕ => (n : ℚ)))).map round2
        retention_rate :=
          (meanQ (((j.filter (fun row => row.state == 2)).map
            (fun row => row.rating)).filterMap ratingMap)).map round2 } := by
  unfold get_avg_review_count
  rw [h]

lemma get_avg_review_count_user_id {s : Store} {uid : ℤ} {res : ResultRecord}
    (h : get_avg_review_count s uid = some res) : res.user_id = uid := by
  unfold get_avg_review_count at h
  cases hl : load_user_data s uid with
  | error e => rw [hl] at h; exact absurd h (by simp)
  | ok j =>
    rw [hl] at h
    cases h
    rfl

lemma rat_floor_eq_floor (q : ℚ) : q.floor = ⌊q⌋ := by
  rw [Rat.floor_def]
  exact Rat.floor_def' q

lemma roundHalfEven_ge {q : ℚ} {n : ℤ} (h : (n : ℚ) ≤ q) :
    n ≤ roundHalfEven q := by
  have hfl : n ≤ ⌊q⌋ := Int.le_floor.mpr h
  unfold roundHalfEven
  rw [rat_floor_eq_floor]
  split_ifs <;> omega

lemma roundHalfEven_le {q : ℚ} {n : ℤ} (h : q ≤ (n : ℚ)) :
    roundHalfEven q ≤ n := by
  have hfl : ⌊q⌋ ≤ n := by
    have := Int.floor_le_floor h
    rwa [Int.floor_intCast] at this
  have hplus : 1/2 ≤ q - (⌊q⌋ : ℚ) → ⌊q⌋ + 1 ≤ n := by
    intro hfr
    have hlt : (⌊q⌋ : ℚ) < q := by linarith
    rcases lt_or_eq_of_le hfl with hlt2 | heq
    · omega
    · exfalso
      rw [heq] at hlt
      exact absurd (lt_of_lt_of_le hlt h) (lt_irrefl _)
  unfold roundHalfEven
  rw [rat_floor_eq_floor]
  split_ifs with h1 h2 h3
  · exact hfl
  · exact hplus (le_of_lt h2)
  · exact hfl
  · exact hplus (le_of_not_lt h1)

lemma round2_ge {q : ℚ} {n : ℤ} (h : (n : ℚ) ≤ q) : (n : ℚ) ≤ round2 q := by
  have h100 : ((100 * n : ℤ) : ℚ) ≤ q * 100 := by push_cast; linarith
  have hr := roundHalfEven_ge h100
  unfold round2
  rw [le_div_iff₀ (by norm_num : (0:ℚ) < 100)]
  calc (n : ℚ) * 100 = ((100 * n : ℤ) : ℚ) := by push_cast; ring
    _ ≤ (roundHalfEven (q * 100) : ℚ) := by exact_mod_cast hr

lemma round2_le {q : ℚ} {n : ℤ} (h : q ≤ (n : ℚ)) : round2 q ≤ (n : ℚ) := by
  have h100 : q * 100 ≤ ((100 * n : ℤ) : ℚ) := by push_cast; linarith
  have hr := roundHalfEven_le h100
  unfold round2
  rw [div_le_iff₀ (by norm_num : (0:ℚ) < 100)]
  calc (roundHalfEven (q * 100) : ℚ) ≤ ((100 * n : ℤ) : ℚ) := by
        exact_mod_cast hr
    _ = (n : ℚ) * 100 := by push_cast; ring

lemma round2_zero : round2 0 = 0 := by
  unfold round2 roundHalfEven
  rw [rat_floor_eq_floor]
  norm_num

lemma meanQ_value_counts {l : List ℤ} (h : l ≠ []) :
    meanQ ((value_counts l).map (fun n : ℕ => (n : ℚ))) =
      some ((l.length : ℚ) / (l.dedup.length : ℚ)) := by
  have hd : l.dedup ≠ [] := by simpa [List.dedup_eq_nil] using h
  unfold meanQ value_counts
  rw [if_neg (by simp [hd])]
  congr 1
  have hsum : ((l.dedup.map (fun v => l.count v)).map (fun n : ℕ => (n : ℚ))).sum
      = (l.length : ℚ) := by
    rw [← Nat.cast_list_sum, List.sum_map_count_dedup_eq_length]
  rw [hsum]
  congr 1
  simp

lemma length_div_dedup_bounds {l : List ℤ} (h : l ≠ []) :
    1 ≤ (l.length : ℚ) / (l.dedup.length : ℚ) ∧
      (l.length : ℚ) / (l.dedup.length : ℚ) ≤ (l.length : ℚ) := by
  have hd : l.dedup ≠ [] := by simpa [List.dedup_eq_nil] using h
  have h1 : 1 ≤ l.dedup.length := List.length_pos.mpr hd
  have h2 : l.dedup.length ≤ l.length := (List.dedup_sublist l).length_le
  have hdpos : (0 : ℚ) < (l.dedup.length : ℚ) := by exact_mod_cast h1
  constructor
  · rw [le_div_iff₀ hdpos]
    have : (l.dedup.length : ℚ) ≤ (l.length : ℚ) := by exact_mod_cast h2
    linarith
  · rw [div_le_iff₀ hdpos]
    have hn : (0 : ℚ) ≤ (l.length : ℚ) := by positivity
    have : (1 : ℚ) ≤ (l.dedup.length : ℚ) := by exact_mod_cast h1
    nlinarith

lemma filterMap_eq_map_of_all {α β : Type} {l : List α} {f : α → Option β}
    {g : α → β} (h : ∀ a ∈ l, f a = some (g a)) :
    l.filterMap f = l.map g := by
  induction l with
  | nil => simp
  | cons x xs ih =>
    rw [List.filterMap_cons, h x (by simp), List.map_cons,
      ih (fun a ha => h a (by simp [ha]))]

/-! ## Concrete stores used by witnesses and counterexamples -/

/-- A small store: user 1 has four reviews (one referencing an absent card
99), two cards on one deck; user 2 has one review with `state = 0`. -/
def storeA : Store :=
  { revlogs := [⟨1, 10, 2, 1⟩, ⟨1, 10, 2, 3⟩, ⟨1, 11, 0, 2⟩, ⟨1, 99, 2, 4⟩,
                ⟨2, 20, 0, 1⟩]
    cards := [⟨1, 10, 100, 5⟩, ⟨1, 11, 101, 5⟩, ⟨2, 20, 200, 6⟩]
    decks := [⟨1, 5⟩, ⟨2, 6⟩] }

/-- The joined record set of user 1 in `storeA` (review 4 is dropped: card
99 is absent from the cards table). -/
def jA : List JoinedRow :=
  [⟨1, 10, 2, 1, 100, 5⟩, ⟨2, 10, 2, 3, 100, 5⟩, ⟨3, 11, 0, 2, 101, 5⟩]

/-- A store whose single user 7 has one `state = 2` review whose rating 5
is outside the retention mapping {1, 2, 3, 4}. -/
def storeB : Store :=
  { revlogs := [⟨7, 10, 2, 5⟩]
    cards := [⟨7, 10, 100, 5⟩]
    decks := [⟨7, 5⟩] }

/-- A store whose single user 3 has two reviews and the second (trailing)
one references an absent card, so the join drops it. -/
def storeC : Store :=
  { revlogs := [⟨3, 10, 0, 3⟩, ⟨3, 99, 0, 3⟩]
    cards := [⟨3, 10, 100, 5⟩]
    decks := [⟨3, 5⟩] }

/-! ## Claims -/

/-- C5: `load_user_data` fails (yields no joined set) exactly when the
filtered review set is empty, or the filtered card set is empty, or the
filtered deck set is empty, or the two-step inner join is empty — and the
checks happen in that order (witnessed by which failure message fires);
in every other case it returns the joined set. -/
theorem claim_C5 (s : Store) (uid : ℤ) :
    ((∃ e, load_user_data s uid = .error e) ↔
      (df_revlogs s uid = [] ∨ df_cards s uid = [] ∨ df_decks s uid = [] ∨
        df_join s uid = [])) ∧
    (df_revlogs s uid = [] → load_user_data s uid = .error .noReviews) ∧
    (df_revlogs s uid ≠ [] → df_cards s uid = [] →
      load_user_data s uid = .error .noCards) ∧
    (df_revlogs s uid ≠ [] → df_cards s uid ≠ [] → df_decks s uid = [] →
      load_user_data s uid = .error .noDecks) ∧
    (df_revlogs s uid ≠ [] → df_cards s uid ≠ [] → df_decks s uid ≠ [] →
      df_join s uid = [] → load_user_data s uid = .error .noJoined) ∧
    (df_revlogs s uid ≠ [] → df_cards s uid ≠ [] → df_decks s uid ≠ [] →
      df_join s uid ≠ [] → load_user_data s uid = .ok (df_join s uid)) := by
  unfold load_user_data
  split_ifs with h1 h2 h3 h4 <;>
    simp_all [List.isEmpty_iff]

/-- C5 witness: on `storeA`, user 1 has all three relations non-empty and a
non-empty join, so the loader returns the joined set. -/
theorem claim_C5_witness :
    load_user_data storeA 1 = .ok (df_join storeA 1) :=
  (claim_C5 storeA 1).2.2.2.2.2 (by decide) (by decide) (by decide)
    (by decide)

/-- C7: for a user with a non-empty fetched review set of N rows, the
`review_th` column over the fetched set is exactly 1, 2, ..., N in fetched
(timestamp-sorted) order. -/
theorem claim_C7 (s : Store) (uid : ℤ) (N : ℕ)
    (h : df_revlogs s uid ≠ []) (hN : (df_revlogs s uid).length = N) :
    (numberRevlogs (df_revlogs s uid)).map (fun nr => nr.review_th) =
      List.range' 1 N := by
  subst hN
  apply List.ext_getElem
  · simp [numberRevlogs]
  · intro i h1 h2
    simp only [numberRevlogs, List.map_map, List.getElem_map,
      List.getElem_enum, Function.comp_apply, List.getElem_range']
    omega

/-- C7 witness: user 1 of `storeA` has 4 fetched reviews, numbered
1, 2, 3, 4. -/
theorem claim_C7_witness :
    (numberRevlogs (df_revlogs storeA 1)).map (fun nr => nr.review_th) =
      List.range' 1 4 :=
  claim_C7 storeA 1 4 (by decide) (by decide)

/-- C4: the rows produced by `process_users` appear in input-list order
(the outcome list is indexed by submission position, then the skips are
removed), and permuting the input list permutes the output rows
correspondingly: the multiset of rows, hence each row's content and the
set of included users, is unchanged. -/
theorem claim_C4 (s : Store) (uids1 uids2 : List ℤ) (h : uids1.Perm uids2) :
    process_users s uids1 = uids1.filterMap (get_avg_review_count s) ∧
    (process_users s uids1).Perm (process_users s uids2) ∧
    ∀ r, r ∈ process_users s uids1 ↔ r ∈ process_users s uids2 := by
  have key : ∀ l : List ℤ,
      process_users s l = l.filterMap (get_avg_review_count s) := by
    intro l
    unfold process_users
    rw [List.filterMap_map]
    rfl
  have hperm : (process_users s uids1).Perm (process_users s uids2) := by
    rw [key uids1, key uids2]
    exact h.filterMap _
  exact ⟨key uids1, hperm, fun r => hperm.mem_iff⟩

/-- C4 witness: on `storeA`, the input lists [1, 2] and [2, 1] give
permuted outputs with the same rows. -/
theorem claim_C4_witness :
    process_users storeA [1, 2] =
      [1, 2].filterMap (get_avg_review_count storeA) ∧
    (process_users storeA [1, 2]).Perm (process_users storeA [2, 1]) ∧
    ∀ r, r ∈ process_users storeA [1, 2] ↔
      r ∈ process_users storeA [2, 1] :=
  claim_C4 storeA [1, 2] [2, 1] (by decide)

/-- C6: a user whose per-user pipeline fails (the task returned the skip
marker `none`) contributes no row to the collected list — which is also
the written file — and when every user fails the file is empty; the
orchestrator itself is a total function, so the run always completes. -/
theorem claim_C6 (s : Store) (uids : List ℤ) :
    (∀ u ∈ uids, get_avg_review_count s u = none →
      ∀ res ∈ process_users s uids, res.user_id ≠ u) ∧
    ((∀ u ∈ uids, get_avg_review_count s u = none) →
      process_users s uids = []) := by
  constructor
  · intro u hu hnone res hres
    unfold process_users at hres
    rw [List.filterMap_map] at hres
    rcases List.mem_filterMap.mp hres with ⟨u2, hu2, hfu2⟩
    simp only [Function.comp_apply, id] at hfu2
    have huid : res.user_id = u2 := get_avg_review_count_user_id hfu2
    intro heq
    rw [heq] at huid
    rw [huid] at hnone
    rw [hnone] at hfu2
    exact Option.noConfusion hfu2
  · intro hall
    unfold process_users
    rw [List.filterMap_map, List.filterMap_eq_nil_iff]
    intro a ha
    simpa using hall a ha

/-- C6 witness: users 8 and 9 have no data in `storeA`, so processing
[8, 9] writes an empty file. -/
theorem claim_C6_witness : process_users storeA [8, 9] = [] :=
  (claim_C6 storeA [8, 9]).2 (by decide)

/-- C1: the joined record set returned by `load_user_data` is the inner
join of the user's reviews to cards on `card_id` followed by the inner
join of that result to decks on `deck_id`; consequently the fetched review
at position i (sequence number i+1) appears in the joined set iff its
`card_id` exists in the user's card table and that card's `deck_id` exists
in the user's deck table — reviews referencing absent cards or decks are
dropped. -/
theorem claim_C1 (s : Store) (uid : ℤ) (j : List JoinedRow)
    (h : load_user_data s uid = .ok j) :
    j = mergeDecks (mergeCards (numberRevlogs (df_revlogs s uid))
        (df_cards s uid)) (df_decks s uid) ∧
    ∀ i, ∀ hi : i < (df_revlogs s uid).length,
      ((∃ row ∈ j, row.review_th = i + 1) ↔
        ∃ c ∈ df_cards s uid,
          c.card_id = ((df_revlogs s uid).get ⟨i, hi⟩).card_id ∧
          ∃ d ∈ df_decks s uid, d.deck_id = c.deck_id) := by
  have hj : j = df_join s uid := (load_user_data_eq_ok.mp h).2.2.2.2
  subst hj
  refine ⟨rfl, ?_⟩
  intro i hi
  constructor
  · rintro ⟨row, hrow, hth⟩
    rcases mem_df_join.mp hrow with ⟨i2, hi2, c, hc, hcc, ⟨d, hd, hdd⟩, heq⟩
    have h2 : row.review_th = i2 + 1 := by rw [heq]
    have hii : i2 = i := by omega
    subst hii
    exact ⟨c, hc, hcc, d, hd, hdd⟩
  · rintro ⟨c, hc, hcc, d, hd, hdd⟩
    exact ⟨_, mem_df_join.mpr ⟨i, hi, c, hc, hcc, ⟨d, hd, hdd⟩, rfl⟩, rfl⟩

/-- C1 witness: on `storeA`, user 1's joined set is the two-step inner
join, and the fourth fetched review (absent card 99) is dropped: no joined
row carries sequence number 4. -/
theorem claim_C1_witness :
    jA = mergeDecks (mergeCards (numberRevlogs (df_revlogs storeA 1))
      (df_cards storeA 1)) (df_decks storeA 1) :=
  (claim_C1 storeA 1 jA (by decide)).1

/-- C8: a user whose non-empty joined set has no `state = 2` row is not
skipped: aggregation succeeds and `retention_rate` is the NaN value
(`none`), the undefined mean propagated into the result. -/
theorem claim_C8 (s : Store) (uid : ℤ) (j : List JoinedRow)
    (h : load_user_data s uid = .ok j)
    (hno : ∀ row ∈ j, row.state ≠ 2) :
    ∃ res, get_avg_review_count s uid = some res ∧
      res.retention_rate = none := by
  refine ⟨_, get_avg_review_count_of_ok h, ?_⟩
  have hfil : j.filter (fun row => row.state == 2) = [] := by
    rw [List.filter_eq_nil_iff]
    intro a ha
    simpa using hno a ha
  simp [hfil, meanQ]

/-- C8 witness: user 2 of `storeA` has one joined row, with `state = 0`;
the result exists and its retention is NaN. -/
theorem claim_C8_witness :
    ∃ res, get_avg_review_count storeA 2 = some res ∧
      res.retention_rate = none :=
  claim_C8 storeA 2 [⟨1, 20, 0, 1, 200, 6⟩] (by decide) (by decide)

/-- For a non-empty key column, the script's
`value_counts().mean().round(2)` equals the rounded mean of per-distinct-key
counts, and that rounded mean lies between 1 and the number of rows. -/
lemma avg_key_spec {l : List ℤ} (h : l ≠ []) :
    (meanQ ((value_counts l).map (fun n : ℕ => (n : ℚ)))).map round2 =
      some (round2 ((l.dedup.map (fun v => (l.count v : ℚ))).sum /
        (l.dedup.length : ℚ))) ∧
    1 ≤ round2 ((l.dedup.map (fun v => (l.count v : ℚ))).sum /
        (l.dedup.length : ℚ)) ∧
    round2 ((l.dedup.map (fun v => (l.count v : ℚ))).sum /
        (l.dedup.length : ℚ)) ≤ (l.length : ℚ) := by
  have hspec : (l.dedup.map (fun v => (l.count v : ℚ))).sum
      = (l.length : ℚ) := by
    have hcomp : l.dedup.map (fun v => (l.count v : ℚ))
        = (l.dedup.map (fun v => l.count v)).map (fun n : ℕ => (n : ℚ)) := by
      rw [List.map_map]
      rfl
    rw [hcomp, ← Nat.cast_list_sum, List.sum_map_count_dedup_eq_length]
  rw [meanQ_value_counts h, hspec]
  obtain ⟨hb1, hb2⟩ := length_div_dedup_bounds h
  refine ⟨rfl, ?_, ?_⟩
  · have := round2_ge (n := 1) (by exact_mod_cast hb1)
    simpa using this
  · have := round2_le (n := (l.length : ℤ)) (by exact_mod_cast hb2)
    exact_mod_cast this

/-- C2: for a non-empty joined set with at least one `state = 2` row, all
of whose `state = 2` rows carry a mappable rating in {1, 2, 3, 4},
`retention_rate` is the mean over the `state = 2` rows of the mapped value
(1 ↦ 0, {2,3,4} ↦ 1) rounded to 2 decimals; in particular if every
`state = 2` row has rating 1 the retention rate is 0.0. -/
theorem claim_C2 (s : Store) (uid : ℤ) (j : List JoinedRow)
    (h : load_user_data s uid = .ok j)
    (hst : ∃ row ∈ j, row.state = 2)
    (hmap : ∀ row ∈ j, row.state = 2 →
      row.rating = 1 ∨ row.rating = 2 ∨ row.rating = 3 ∨ row.rating = 4) :
    ∃ res, get_avg_review_count s uid = some res ∧
      res.retention_rate = some (round2
        (((j.filter (fun row => row.state == 2)).map
            (fun row => if row.rating = 1 then (0 : ℚ) else 1)).sum /
          ((j.filter (fun row => row.state == 2)).length : ℚ))) ∧
      ((∀ row ∈ j, row.state = 2 → row.rating = 1) →
        res.retention_rate = some 0) := by
  have hFne : j.filter (fun row => row.state == 2) ≠ [] := by
    obtain ⟨row, hrow, hs⟩ := hst
    exact List.ne_nil_of_mem (List.mem_filter.mpr ⟨hrow, by simp [hs]⟩)
  have key : ((j.filter (fun row => row.state == 2)).map
        (fun row => row.rating)).filterMap ratingMap
      = (j.filter (fun row => row.state == 2)).map
        (fun row => if row.rating = 1 then (0 : ℚ) else 1) := by
    rw [List.filterMap_map]
    apply filterMap_eq_map_of_all
    intro row hrow
    have hj2 := List.mem_filter.mp hrow
    have hs : row.state = 2 := by simpa using hj2.2
    rcases hmap row hj2.1 hs with h1 | h1 | h1 | h1 <;>
      simp [Function.comp, ratingMap, h1]
  have hne2 : (j.filter (fun row => row.state == 2)).map
      (fun row => if row.rating = 1 then (0 : ℚ) else 1) ≠ [] := by
    simpa using hFne
  refine ⟨_, get_avg_review_count_of_ok h, ?_, ?_⟩
  · dsimp only
    rw [key, meanQ, if_neg (by simpa using hne2)]
    simp
  · intro hall
    have hsum : ((j.filter (fun row => row.state == 2)).map
        (fun row => if row.rating = 1 then (0 : ℚ) else 1)).sum = 0 := by
      apply List.sum_eq_zero
      intro x hx
      rcases List.mem_map.mp hx with ⟨row, hrow, hxe⟩
      have hj2 := List.mem_filter.mp hrow
      have h1 : row.rating = 1 := hall row hj2.1 (by simpa using hj2.2)
      simp [← hxe, h1]
    dsimp only
    rw [key, meanQ, if_neg (by simpa using hne2), hsum]
    simp [round2_zero]

/-- C2 witness: user 1 of `storeA` has two `state = 2` joined rows with
ratings 1 and 3, so the retention rate is round2((0 + 1) / 2) = 0.5. -/
theorem claim_C2_witness :
    ∃ res, get_avg_review_count storeA 1 = some res ∧
      res.retention_rate = some (round2
        (((jA.filter (fun row => row.state == 2)).map
            (fun row => if row.rating = 1 then (0 : ℚ) else 1)).sum /
          ((jA.filter (fun row => row.state == 2)).length : ℚ))) ∧
      ((∀ row ∈ jA, row.state = 2 → row.rating = 1) →
        res.retention_rate = some 0) :=
  claim_C2 storeA 1 jA (by rfl) (by decide) (by decide)

/-- C3: for a non-empty joined set, `avg_review_count_per_note` is the
rounded mean, over distinct note ids, of the per-note row counts, and
`avg_review_count_per_card` is the same computation grouped by card id;
both rounded values lie between 1 and `revlogs_count`. -/
theorem claim_C3 (s : Store) (uid : ℤ) (j : List JoinedRow)
    (h : load_user_data s uid = .ok j) :
    ∃ res, get_avg_review_count s uid = some res ∧
      ∃ qn qc,
        res.avg_review_count_per_note = some qn ∧
        res.avg_review_count_per_card = some qc ∧
        qn = round2
          (((j.map (fun row => row.note_id)).dedup.map
              (fun v => ((j.map (fun row => row.note_id)).count v : ℚ))).sum /
            ((j.map (fun row => row.note_id)).dedup.length : ℚ)) ∧
        qc = round2
          (((j.map (fun row => row.card_id)).dedup.map
              (fun v => ((j.map (fun row => row.card_id)).count v : ℚ))).sum /
            ((j.map (fun row => row.card_id)).dedup.length : ℚ)) ∧
        1 ≤ qn ∧ qn ≤ (res.revlogs_count : ℚ) ∧
        1 ≤ qc ∧ qc ≤ (res.revlogs_count : ℚ) := by
  have hjne : j ≠ [] := by
    have := (load_user_data_eq_ok.mp h).2.2.2
    intro hnil
    rw [hnil] at this
    exact this.1 this.2.symm
  have hkn : j.map (fun row => row.note_id) ≠ [] := by simpa using hjne
  have hkc : j.map (fun row => row.card_id) ≠ [] := by simpa using hjne
  obtain ⟨hn1, hn2, hn3⟩ := avg_key_spec hkn
  obtain ⟨hc1, hc2, hc3⟩ := avg_key_spec hkc
  refine ⟨_, get_avg_review_count_of_ok h, _, _, hn1, hc1, rfl, rfl,
    hn2, ?_, hc2, ?_⟩
  · dsimp only
    rw [List.length_map] at hn3
    exact hn3
  · dsimp only
    rw [List.length_map] at hc3
    exact hc3

/-- C3 witness: user 1 of `storeA` has 3 joined rows over 2 notes and 2
cards, so both averages are round2(3/2) = 1.5, between 1 and 3. -/
theorem claim_C3_witness :
    ∃ res, get_avg_review_count storeA 1 = some res ∧
      ∃ qn qc,
        res.avg_review_count_per_note = some qn ∧
        res.avg_review_count_per_card = some qc ∧
        qn = round2
          (((jA.map (fun row => row.note_id)).dedup.map
              (fun v => ((jA.map (fun row => row.note_id)).count v : ℚ))).sum /
            ((jA.map (fun row => row.note_id)).dedup.length : ℚ)) ∧
        qc = round2
          (((jA.map (fun row => row.card_id)).dedup.map
              (fun v => ((jA.map (fun row => row.card_id)).count v : ℚ))).sum /
            ((jA.map (fun row => row.card_id)).dedup.length : ℚ)) ∧
        1 ≤ qn ∧ qn ≤ (res.revlogs_count : ℚ) ∧
        1 ≤ qc ∧ qc ≤ (res.revlogs_count : ℚ) :=
  claim_C3 storeA 1 jA (by rfl)

/-- C9 counterexample: user 7 of `storeB` has a `state = 2` joined row with
rating 5, outside {1, 2, 3, 4} — yet aggregation succeeds and the user's
row is written to the output (it is NOT skipped): pandas maps the unknown
rating to NaN and `mean` skips it, so no error is raised. -/
theorem claim_C9_counterexample :
    load_user_data storeB 7 = .ok [⟨1, 10, 2, 5, 100, 5⟩] ∧
    ((5 : ℤ) ≠ 1 ∧ (5 : ℤ) ≠ 2 ∧ (5 : ℤ) ≠ 3 ∧ (5 : ℤ) ≠ 4) ∧
    ∃ res, get_avg_review_count storeB 7 = some res ∧
      res.retention_rate = none ∧
      process_users storeB [7] = [res] := by
  have h : load_user_data storeB 7 = .ok [⟨1, 10, 2, 5, 100, 5⟩] := by rfl
  refine ⟨h, by decide, _, get_avg_review_count_of_ok h, by rfl, ?_⟩
  unfold process_users
  simp only [List.map_cons, List.map_nil, get_avg_review_count_of_ok h]
  rfl

/-- C9 (amended): an unmappable rating does not make aggregation fail.
Whenever loading succeeds the aggregation stage succeeds too — even when a
`state = 2` row carries a rating outside {1, 2, 3, 4} — and the user's row
is included in the output; the unmappable rating is mapped to NaN and
silently excluded from the retention mean (`filterMap ratingMap`), which is
NaN if no mappable rating remains. -/
theorem claim_C9_amended (s : Store) (uid : ℤ) (j : List JoinedRow)
    (h : load_user_data s uid = .ok j) :
    ∃ res, get_avg_review_count s uid = some res ∧
      res.retention_rate =
        (meanQ (((j.filter (fun row => row.state == 2)).map
          (fun row => row.rating)).filterMap ratingMap)).map round2 ∧
      res ∈ process_users s [uid] := by
  refine ⟨_, get_avg_review_count_of_ok h, rfl, ?_⟩
  unfold process_users
  simp [get_avg_review_count_of_ok h]

/-- C9 amended witness: instantiated on `storeB` user 7 itself. -/
theorem claim_C9_amended_witness :
    ∃ res, get_avg_review_count storeB 7 = some res ∧
      res.retention_rate =
        (meanQ ((([(⟨1, 10, 2, 5, 100, 5⟩ : JoinedRow)].filter
          (fun row => row.state == 2)).map
          (fun row => row.rating)).filterMap ratingMap)).map round2 ∧
      res ∈ process_users storeB [7] :=
  claim_C9_amended storeB 7 [⟨1, 10, 2, 5, 100, 5⟩] (by rfl)

/-- C10 counterexample: user 3 of `storeC` has two fetched reviews; the
join drops the second (its card 99 is absent), so a review was dropped,
yet the surviving `review_th` column is [1]: it has no gap and its maximum
1 equals `revlogs_count` = 1 rather than strictly exceeding it. -/
theorem claim_C10_counterexample :
    (df_revlogs storeC 3).length = 2 ∧
    load_user_data storeC 3 = .ok [⟨1, 10, 0, 3, 100, 5⟩] ∧
    (∀ row ∈ [(⟨1, 10, 0, 3, 100, 5⟩ : JoinedRow)], row.review_th ≠ 2) ∧
    (∃ res, get_avg_review_count storeC 3 = some res ∧
      res.revlogs_count = 1) ∧
    [(⟨1, 10, 0, 3, 100, 5⟩ : JoinedRow)].map (fun row => row.review_th)
      = [1] ∧
    ¬ 1 < (1 : ℕ) := by
  have h : load_user_data storeC 3 = .ok [⟨1, 10, 0, 3, 100, 5⟩] := by rfl
  exact ⟨by rfl, h, by decide, ⟨_, get_avg_review_count_of_ok h, rfl⟩,
    by rfl, by decide⟩

/-- C10 (amended): `revlogs_count` counts the joined rows while `review_th`
is assigned over all fetched reviews before the join and never renumbered;
hence every joined row's sequence number lies in 1..N (N the fetched
count), and whenever the join drops a review — its card absent, or the
card's deck absent — that review's sequence number is missing from the
joined set; the maximum surviving `review_th` may exceed `revlogs_count`
but need not (e.g. when only trailing reviews are dropped). -/
theorem claim_C10_amended (s : Store) (uid : ℤ) (j : List JoinedRow)
    (res : ResultRecord)
    (h : load_user_data s uid = .ok j)
    (hres : get_avg_review_count s uid = some res) :
    res.revlogs_count = j.length ∧
    (∀ row ∈ j, 1 ≤ row.review_th ∧
      row.review_th ≤ (df_revlogs s uid).length) ∧
    ∀ i, ∀ hi : i < (df_revlogs s uid).length,
      (¬ ∃ c ∈ df_cards s uid,
        c.card_id = ((df_revlogs s uid).get ⟨i, hi⟩).card_id ∧
        ∃ d ∈ df_decks s uid, d.deck_id = c.deck_id) →
      ∀ row ∈ j, row.review_th ≠ i + 1 := by
  have hres2 := get_avg_review_count_of_ok h
  rw [hres] at hres2
  have hresrec := Option.some.inj hres2
  have hj : j = df_join s uid := (load_user_data_eq_ok.mp h).2.2.2.2
  subst hj
  refine ⟨by rw [hresrec], ?_, ?_⟩
  · intro row hrow
    rcases mem_df_join.mp hrow with ⟨i, hi, c, hc, hcc, hd, heq⟩
    have : row.review_th = i + 1 := by rw [heq]
    omega
  · intro i hi hnc row hrow hth
    rcases mem_df_join.mp hrow with ⟨i2, hi2, c, hc, hcc, hd, heq⟩
    have h2 : row.review_th = i2 + 1 := by rw [heq]
    have hii : i2 = i := by omega
    subst hii
    exact hnc ⟨c, hc, hcc, hd⟩

/-- C10 amended witness: instantiated on `storeC` user 3; the dropped
second review's sequence number 2 indeed appears on no joined row. -/
theorem claim_C10_amended_witness :
    ∃ res, get_avg_review_count storeC 3 = some res ∧
      (res.revlogs_count = [(⟨1, 10, 0, 3, 100, 5⟩ : JoinedRow)].length ∧
      (∀ row ∈ [(⟨1, 10, 0, 3, 100, 5⟩ : JoinedRow)], 1 ≤ row.review_th ∧
        row.review_th ≤ (df_revlogs storeC 3).length) ∧
      ∀ i, ∀ hi : i < (df_revlogs storeC 3).length,
        (¬ ∃ c ∈ df_cards storeC 3,
          c.card_id = ((df_revlogs storeC 3).get ⟨i, hi⟩).card_id ∧
          ∃ d ∈ df_decks storeC 3, d.deck_id = c.deck_id) →
        ∀ row ∈ [(⟨1, 10, 0, 3, 100, 5⟩ : JoinedRow)],
          row.review_th ≠ i + 1) := by
  have h : load_user_data storeC 3 = .ok [⟨1, 10, 0, 3, 100, 5⟩] := by rfl
  have hres := get_avg_review_count_of_ok h
  exact ⟨_, hres, claim_C10_amended storeC 3 _ _ h hres⟩
